import Mathlib

/-!
Verification of the Rayafin multi-tenant accounting backend.

This file is a shallow embedding, in Lean 4, of the authorization and
commission-lifecycle core of the backend (src/backend/app/models.py,
src/backend/app/main.py, src/backend/app/permissions.py).

Monetary quantities are modelled as scaled integers, mirroring Python's
exact `Decimal` arithmetic on `Numeric(12,2)` columns:
  * amounts (`total_amount`, `discount`, `commission_amount`, `base_amount`)
    are integers counting cents (hundredths);
  * `quantity` and `unit_price` are integers counting hundredths, so a
    product `quantity * unit_price` counts ten-thousandths;
  * `percent` / `commission_percent` are integers counting hundredths of a
    percentage point (so `20.00%` is `2000`).
Python's `Decimal.quantize(Decimal('0.01'), rounding=ROUND_HALF_UP)` is
`roundHalfUpScaled · 100` on the ten-thousandths scale, and a bare
`Decimal.quantize(Decimal('0.01'))` (which uses the default context rounding
ROUND_HALF_EVEN) is `roundHalfEvenScaled · 100`.

The persistent store is modelled as explicit lists of rows threaded through
every operation; HTTP outcomes are an `Except ApiError` result.

The `Invoice.status` column is an `Enum(InvoiceStatus)` over a plain Python
`Enum`; assignments to the attribute are dynamically typed, so the value
observed by the attribute 'set' listener is modelled by `StatusValue`:
either a raw lowercase string (what the REST update path assigns from its
`status_map` dict) or a typed `InvoiceStatus` member (what typed code such
as the `models.py` demo assigns).  A string never compares equal to a plain
`Enum` member, and only the member names DRAFT/ISSUED/PAID can round-trip
the column, so the update endpoint surfaces a server error on every
recognized status input and the listener never fires usefully through it.
-/

namespace Rayafin

/-- Decidable equality for `Except`, so that concrete endpoint outcomes can
be settled by `decide`. -/
instance {ε α : Type} [DecidableEq ε] [DecidableEq α] :
    DecidableEq (Except ε α) := fun x y =>
  match x, y with
  | .ok a, .ok b =>
    if h : a = b then .isTrue (by rw [h])
    else .isFalse (by intro hc; injection hc; contradiction)
  | .error a, .error b =>
    if h : a = b then .isTrue (by rw [h])
    else .isFalse (by intro hc; injection hc; contradiction)
  | .ok _, .error _ => .isFalse (by intro hc; exact Except.noConfusion hc)
  | .error _, .ok _ => .isFalse (by intro hc; exact Except.noConfusion hc)

/-- Roles of `models.UserRole` / `permissions.RoleName`. -/
inductive Role
  | owner
  | accountant
  | sales
deriving DecidableEq, Repr

/-- Invoice lifecycle states of `models.InvoiceStatus`. -/
inductive InvoiceStatus
  | draft
  | issued
  | paid
deriving DecidableEq, Repr

/-- Commission workflow states of `models.CommissionStatus`. -/
inductive CommissionStatus
  | pending
  | approved
  | paid
deriving DecidableEq, Repr

/-- The permission keys of `permissions.PermissionKey`. -/
inductive PermissionKey
  | invoiceCreate
  | invoiceUpdate
  | invoiceDelete
  | invoiceLock
  | invoiceUnlock
  | invoiceRead
  | commissionRead
  | commissionApprove
  | commissionMarkPaid
  | commissionCreateSnapshot
  | customerRead
  | customerCreate
  | customerUpdate
  | customerDelete
  | productRead
  | productCreate
  | productUpdate
  | productDelete
  | productImport
  | auditRead
deriving DecidableEq, Repr

/-- The static role table of `permissions.PERMISSION_MATRIX`. -/
def PERMISSION_MATRIX : PermissionKey → List Role
  | .invoiceCreate => [.owner, .accountant]
  | .invoiceUpdate => [.owner]
  | .invoiceDelete => [.owner]
  | .invoiceLock => [.owner]
  | .invoiceUnlock => [.owner]
  | .invoiceRead => [.owner, .accountant, .sales]
  | .commissionRead => [.owner, .accountant, .sales]
  | .commissionApprove => [.owner]
  | .commissionMarkPaid => [.owner]
  | .commissionCreateSnapshot => [.owner, .accountant]
  | .customerRead => [.owner, .accountant, .sales]
  | .customerCreate => [.owner, .accountant]
  | .customerUpdate => [.owner, .accountant]
  | .customerDelete => [.owner, .accountant]
  | .productRead => [.owner, .accountant, .sales]
  | .productCreate => [.owner]
  | .productUpdate => [.owner]
  | .productDelete => [.owner]
  | .productImport => [.owner]
  | .auditRead => [.owner, .accountant]

/-- `permission_helpers.has_permission`: role membership in the matrix row. -/
def has_permission (role : Role) (permission : PermissionKey) : Bool :=
  (PERMISSION_MATRIX permission).contains role

/-- The role set passed to `require_roles` by the invoice-item create endpoint
(`main.create_invoice_item` uses an explicit role list, not the matrix). -/
def create_invoice_item_roles : List Role := [Role.owner, Role.accountant]

/-- Division of `n` by a positive scale `s` rounding ties away from zero:
Python `Decimal.quantize(..., rounding=ROUND_HALF_UP)` on the scaled
integer representation. -/
def roundHalfUpScaled (n : Int) (s : Nat) : Int :=
  let q : Nat := n.natAbs / s
  let r : Nat := n.natAbs % s
  let m : Nat := if s ≤ 2 * r then q + 1 else q
  if n < 0 then -(m : Int) else (m : Int)

/-- Division of `n` by a positive scale `s` rounding ties to even:
Python `Decimal.quantize(Decimal('0.01'))` under the default context
(ROUND_HALF_EVEN) on the scaled integer representation. -/
def roundHalfEvenScaled (n : Int) (s : Nat) : Int :=
  let q : Nat := n.natAbs / s
  let r : Nat := n.natAbs % s
  let m : Nat :=
    if s < 2 * r then q + 1
    else if 2 * r < s then q
    else if q % 2 = 0 then q else q + 1
  if n < 0 then -(m : Int) else (m : Int)

/-- `models.InvoiceItem.calculate_total_amount`: validates signs, computes
`(quantity * unit_price - discount)` rounded half-up to cents, and rejects a
negative result.  `quantity` and `unit_price` are in hundredths, `discount`
in cents; the result is in cents. -/
def calculate_total_amount (quantity unit_price discount : Int) :
    Except String Int :=
  if quantity < 0 then .error "Quantity cannot be negative"
  else if unit_price < 0 then .error "Unit price cannot be negative"
  else if discount < 0 then .error "Discount cannot be negative"
  else
    let total := roundHalfUpScaled (quantity * unit_price - discount * 100) 100
    if total < 0 then
      .error "Total amount cannot be negative (discount exceeds subtotal)"
    else .ok total

/-- `models.Commission.calculate_commission_amount`: validates ranges and
computes `base_amount * (percent / 100)` rounded half-up to cents.
`base_amount` is in cents, `percent` in hundredths of a percent. -/
def calculate_commission_amount (base_amount percent : Int) :
    Except String Int :=
  if base_amount < 0 then .error "Base amount cannot be negative"
  else if percent < 0 ∨ 10000 < percent then
    .error "Percent must be between 0 and 100"
  else .ok (roundHalfUpScaled (base_amount * percent) 10000)

/-- The `status_map` dict used by `main.create_invoice` and
`main.update_invoice` to normalize the external status vocabulary.  It is
a dict from strings to *strings* — its values are the lowercase words
"draft"/"issued"/"paid", not `InvoiceStatus` members. -/
def status_map (s : String) : Option String :=
  if s = "draft" then some "draft"
  else if s = "sent" then some "issued"
  else if s = "issued" then some "issued"
  else if s = "overdue" then some "issued"
  else if s = "paid" then some "paid"
  else none

/-- Row of the `users` table (`models.User`). -/
structure UserRow where
  id : Nat
  email : String
  full_name : String
  is_active : Bool
deriving DecidableEq, Repr

/-- Row of the `company_users` table (`models.CompanyUser`): the membership
binding a user to a company with a role and a commission rate. -/
structure MembershipRow where
  company_id : Nat
  user_id : Nat
  role : Role
  commission_percent : Int
deriving DecidableEq, Repr

/-- Row of the `companies` table (`models.Company`). -/
structure CompanyRow where
  id : Nat
  name : String
deriving DecidableEq, Repr

/-- Row of the `customers` table (`models.Customer`). -/
structure CustomerRow where
  id : Nat
  company_id : Nat
  name : String
deriving DecidableEq, Repr

/-- Row of the `invoices` table (`models.Invoice`). -/
structure InvoiceRow where
  id : Nat
  company_id : Nat
  customer_id : Nat
  invoice_number : String
  status : InvoiceStatus
  sold_by_user_id : Option Nat
  total_amount : Int
  is_locked : Bool
deriving DecidableEq, Repr

/-- Row of the `invoice_items` table (`models.InvoiceItem`). -/
structure InvoiceItemRow where
  id : Nat
  invoice_id : Nat
  description : String
  quantity : Int
  unit_price : Int
  discount : Int
  total_amount : Int
deriving DecidableEq, Repr

/-- Row of the `commissions` table (`models.Commission`). -/
structure CommissionRow where
  id : Nat
  company_id : Nat
  invoice_id : Nat
  user_id : Option Nat
  base_amount : Int
  percent : Int
  commission_amount : Int
  status : CommissionStatus
deriving DecidableEq, Repr

/-- The persistent store: one list per table plus a primary-key counter. -/
structure Db where
  companies : List CompanyRow
  users : List UserRow
  memberships : List MembershipRow
  customers : List CustomerRow
  invoices : List InvoiceRow
  invoice_items : List InvoiceItemRow
  commissions : List CommissionRow
  next_id : Nat
deriving DecidableEq, Repr

/-- HTTP-level failure outcomes used by the endpoints:
401, 403, 404, 422, and an unhandled server error (500) for a commit that
fails at the storage layer (e.g. an invalid enum bind), respectively. -/
inductive ApiError
  | unauthorized
  | forbidden
  | notFound
  | validationFailure
  | internalError
deriving DecidableEq, Repr

/-- `main.AccessContext`: the resolved principal, tenant and role. -/
structure AccessContext where
  user_id : Nat
  company_id : Nat
  role : Role
deriving DecidableEq, Repr

/-- The company identifier supplied by the caller (header `X-Company-Id` or
query parameter `company_id`): absent, present but not a decimal string,
or present with a parsed value. -/
inductive CompanyParam
  | absent
  | malformed
  | given (id : Nat)
deriving DecidableEq, Repr

/-- `main._resolve_company_id_for_request`: precedence between an explicit
caller-supplied company id and inference from a unique membership. -/
def resolve_company_id_for_request (param : CompanyParam) (user_id : Nat)
    (db : Db) : Except ApiError Nat :=
  match param with
  | .malformed => .error .forbidden
  | .given c => .ok c
  | .absent =>
    match db.memberships.filter (fun m => m.user_id == user_id) with
    | [m] => .ok m.company_id
    | _ => .error .forbidden

/-- `main.get_access_context`: resolves the company, then requires a
membership of the caller in exactly that company. -/
def get_access_context (param : CompanyParam) (user_id : Nat) (db : Db) :
    Except ApiError AccessContext :=
  match resolve_company_id_for_request param user_id db with
  | .error e => .error e
  | .ok company_id =>
    match db.memberships.find?
        (fun m => m.company_id == company_id && m.user_id == user_id) with
    | none => .error .forbidden
    | some m =>
      .ok { user_id := user_id, company_id := company_id, role := m.role }

/-- The `MeResponse` schema returned by GET `/api/auth/me`. -/
structure MeResponse where
  id : Nat
  email : String
  full_name : String
  is_active : Bool
  role : Option Role
  company_id : Option Nat
deriving DecidableEq, Repr

/-- `main.get_current_user` (GET `/api/auth/me`): looks the user up by the
caller-chosen `user_id`; the mandatory `token` query parameter is accepted
but never inspected. -/
def get_current_user (user_id : Nat) (token : String) (db : Db) :
    Except ApiError MeResponse :=
  match db.users.find? (fun u => u.id == user_id) with
  | none => .error .unauthorized
  | some u =>
    if u.is_active = false then .error .unauthorized
    else
      let cu := db.memberships.find? (fun m => m.user_id == u.id)
      .ok { id := u.id, email := u.email, full_name := u.full_name,
            is_active := u.is_active,
            role := cu.map (fun m => m.role),
            company_id := cu.map (fun m => m.company_id) }

/-- `main.create_company` (POST `/api/companies`): guarded by
`require_owner()`; creates the company and an OWNER membership for the
calling principal with `commission_percent = 0.00`. -/
def create_company (ctx : AccessContext) (name : String) (db : Db) :
    Except ApiError (CompanyRow × Db) :=
  if ctx.role = Role.owner then
    let new_company : CompanyRow := { id := db.next_id, name := name }
    let owner_membership : MembershipRow :=
      { company_id := new_company.id, user_id := ctx.user_id,
        role := Role.owner, commission_percent := 0 }
    .ok (new_company,
      { db with companies := db.companies ++ [new_company],
                memberships := db.memberships ++ [owner_membership],
                next_id := db.next_id + 1 })
  else .error .forbidden

/-- `main.get_customer` (GET `/api/customers/{id}`): guarded by
`require_permission(CUSTOMER_READ)`; the lookup is filtered by the
resolved tenant. -/
def get_customer (ctx : AccessContext) (customer_id : Nat) (db : Db) :
    Except ApiError CustomerRow :=
  if has_permission ctx.role PermissionKey.customerRead then
    match db.customers.find?
        (fun c => c.id == customer_id && c.company_id == ctx.company_id) with
    | none => .error .notFound
    | some c => .ok c
  else .error .forbidden

/-- The tenant-filtered invoice query built by `main.list_invoices`:
always filtered by the resolved company; SALES additionally restricted to
invoices it sold; otherwise an optional `sold_by_user_id` filter applies. -/
def list_invoices_query (ctx : AccessContext) (sold_by_user_id : Option Nat)
    (db : Db) : List InvoiceRow :=
  let base := db.invoices.filter (fun i => i.company_id == ctx.company_id)
  if ctx.role = Role.sales then
    base.filter (fun i => i.sold_by_user_id == some ctx.user_id)
  else
    match sold_by_user_id with
    | some u => base.filter (fun i => i.sold_by_user_id == some u)
    | none => base

/-- `main.list_invoices` (GET `/api/invoices`): guarded by
`require_permission(INVOICE_READ)`; an explicit `company_id` query
parameter different from the resolved tenant is rejected. -/
def list_invoices (ctx : AccessContext) (company_id : Option Nat)
    (sold_by_user_id : Option Nat) (db : Db) :
    Except ApiError (List InvoiceRow) :=
  if has_permission ctx.role PermissionKey.invoiceRead then
    match company_id with
    | some c =>
      if c = ctx.company_id then .ok (list_invoices_query ctx sold_by_user_id db)
      else .error .forbidden
    | none => .ok (list_invoices_query ctx sold_by_user_id db)
  else .error .forbidden

/-- The value carried by an assignment to the `Invoice.status` attribute.
Python is dynamically typed: `main.update_invoice` assigns the lowercase
strings of its `status_map`, while typed code (such as the demo in the
`models.py` main block) assigns `InvoiceStatus` members.  The SQLAlchemy
'set' listener receives whichever was assigned, and a plain `Enum` member
never compares equal to a string. -/
inductive StatusValue
  | ofString (s : String)
  | ofEnum (v : InvoiceStatus)
deriving DecidableEq, Repr

/-- `models.create_commission_snapshot_on_paid`: the SQLAlchemy listener on
`Invoice.status` 'set' events, as fired from a session-attached instance.
`value` is the raw value being assigned — a lowercase string on the REST
update path, an `InvoiceStatus` member in typed code — and `old_value`
the loaded (typed) current status.  The guard
`value != InvoiceStatus.PAID or old_value == InvoiceStatus.PAID` skips
unless the assigned value *is* the PAID member (a string never is) and
the prior status is not PAID.  The rate is the seller's membership rate,
defaulting to 20.00%; a failure of `calculate_commission_amount` is
swallowed (logged only). -/
def create_commission_snapshot_on_paid (target : InvoiceRow)
    (value : StatusValue) (old_value : InvoiceStatus) (db : Db) : Db :=
  if value ≠ StatusValue.ofEnum InvoiceStatus.paid ∨
      old_value = InvoiceStatus.paid then db
  else
    match target.sold_by_user_id with
    | none => db
    | some seller =>
      let percent :=
        match db.memberships.find?
            (fun m => m.company_id == target.company_id && m.user_id == seller) with
        | none => 2000
        | some m => m.commission_percent
      match calculate_commission_amount target.total_amount percent with
      | .error _ => db
      | .ok amount =>
        { db with
          commissions := db.commissions ++
            [{ id := db.next_id, company_id := target.company_id,
               invoice_id := target.id, user_id := some seller,
               base_amount := target.total_amount, percent := percent,
               commission_amount := amount,
               status := CommissionStatus.pending }],
          next_id := db.next_id + 1 }

/-- The body of a PUT `/api/invoices/{id}` request (`main.InvoiceUpdate`). -/
structure InvoiceUpdate where
  status : Option String
  total_amount : Option Int
deriving DecidableEq, Repr

/-- `main.update_invoice` (PUT `/api/invoices/{id}`): guarded by
`require_permission(INVOICE_UPDATE)`; a locked invoice is only editable
by OWNER.  A supplied status is looked up in `status_map`
(`invoice.status = status_map.get(s, invoice.status)`):
  * a recognized input assigns the mapped *lowercase string* to the
    `Enum(InvoiceStatus)` attribute.  The 'set' listener receives that
    raw string, whose guard `value != InvoiceStatus.PAID` holds for every
    string, so it returns without creating a snapshot; the string is not
    among the enum's member names (DRAFT/ISSUED/PAID), so the bind fails
    at `db.commit()`, the session is rolled back, and the request
    surfaces a server error with nothing persisted;
  * an unrecognized input falls back to `invoice.status`, the current
    typed value — the listener fires with `value = old_value`, a no-op —
    and the commit succeeds with the status unchanged.
A `total_amount` in the body is applied when the commit is reached. -/
def update_invoice (ctx : AccessContext) (invoice_id : Nat)
    (upd : InvoiceUpdate) (db : Db) : Except ApiError (InvoiceRow × Db) :=
  if has_permission ctx.role PermissionKey.invoiceUpdate then
    match db.invoices.find?
        (fun i => i.id == invoice_id && i.company_id == ctx.company_id) with
    | none => .error .notFound
    | some inv =>
      if inv.is_locked ∧ ctx.role ≠ Role.owner then .error .forbidden
      else
        match upd.status with
        | some s =>
          match status_map s with
          | some mapped =>
            let _fired := create_commission_snapshot_on_paid inv
              (StatusValue.ofString mapped) inv.status db
            .error .internalError
          | none =>
            let db1 := create_commission_snapshot_on_paid inv
              (StatusValue.ofEnum inv.status) inv.status db
            let inv2 : InvoiceRow :=
              match upd.total_amount with
              | none => inv
              | some t => { inv with total_amount := t }
            .ok (inv2,
              { db1 with invoices := db1.invoices.map (fun i =>
                  if i.id == invoice_id then inv2 else i) })
        | none =>
          let inv2 : InvoiceRow :=
            match upd.total_amount with
            | none => inv
            | some t => { inv with total_amount := t }
          .ok (inv2,
            { db with invoices := db.invoices.map (fun i =>
                if i.id == invoice_id then inv2 else i) })
  else .error .forbidden

/-- The body of a POST `/api/invoice-items` request
(`main.InvoiceItemCreate`). -/
structure InvoiceItemCreate where
  invoice_id : Nat
  description : String
  quantity : Int
  unit_price : Int
  discount : Int
  total_amount : Int
deriving DecidableEq, Repr

/-- `main.create_invoice_item` (POST `/api/invoice-items`): guarded by
`require_roles(OWNER, ACCOUNTANT)` and the lock; the server recomputes
`quantity * unit_price - discount` and quantizes it to cents with the
default context rounding (`expected_total.quantize(Decimal('0.01'))`,
i.e. half-even), rejecting any other supplied total with 422. -/
def create_invoice_item (ctx : AccessContext) (item : InvoiceItemCreate)
    (db : Db) : Except ApiError (InvoiceItemRow × Db) :=
  if ctx.role ∈ create_invoice_item_roles then
    match db.invoices.find?
        (fun i => i.id == item.invoice_id && i.company_id == ctx.company_id) with
    | none => .error .notFound
    | some inv =>
      if inv.is_locked ∧ ctx.role ≠ Role.owner then .error .forbidden
      else
        let expected_total :=
          roundHalfEvenScaled
            (item.quantity * item.unit_price - item.discount * 100) 100
        if item.total_amount ≠ expected_total then .error .validationFailure
        else
          let new_item : InvoiceItemRow :=
            { id := db.next_id, invoice_id := item.invoice_id,
              description := item.description, quantity := item.quantity,
              unit_price := item.unit_price, discount := item.discount,
              total_amount := item.total_amount }
          .ok (new_item,
            { db with invoice_items := db.invoice_items ++ [new_item],
                      next_id := db.next_id + 1 })
  else .error .forbidden

/-- `main.approve_commission` (POST `/api/commissions/{id}/approve`):
guarded by `require_owner()`; sets the status to APPROVED
unconditionally. -/
def approve_commission (ctx : AccessContext) (commission_id : Nat) (db : Db) :
    Except ApiError (CommissionRow × Db) :=
  if ctx.role = Role.owner then
    match db.commissions.find?
        (fun c => c.id == commission_id && c.company_id == ctx.company_id) with
    | none => .error .notFound
    | some c =>
      let c2 : CommissionRow := { c with status := CommissionStatus.approved }
      .ok (c2,
        { db with commissions :=
            db.commissions.map (fun x => if x.id == commission_id then c2 else x) })
  else .error .forbidden

/-- `main.mark_commission_paid` (POST `/api/commissions/{id}/mark-paid`):
guarded by `require_owner()`; sets the status to PAID unconditionally. -/
def mark_commission_paid (ctx : AccessContext) (commission_id : Nat)
    (db : Db) : Except ApiError (CommissionRow × Db) :=
  if ctx.role = Role.owner then
    match db.commissions.find?
        (fun c => c.id == commission_id && c.company_id == ctx.company_id) with
    | none => .error .notFound
    | some c =>
      let c2 : CommissionRow := { c with status := CommissionStatus.paid }
      .ok (c2,
        { db with commissions :=
            db.commissions.map (fun x => if x.id == commission_id then c2 else x) })
  else .error .forbidden

/-- `main.create_commission_snapshot`
(POST `/api/invoices/{id}/create-commission-snapshot`): guarded by
`require_permission(COMMISSION_CREATE_SNAPSHOT)` plus an explicit SALES
rejection; a no-op returning existing rows when any commission exists for
the invoice; otherwise snapshots the current total and rate, quantizing
`base * percent / 100` to cents with the default context rounding
(half-even, no `rounding=` argument in the source). -/
def create_commission_snapshot (ctx : AccessContext) (invoice_id : Nat)
    (db : Db) : Except ApiError (List CommissionRow × Db) :=
  if has_permission ctx.role PermissionKey.commissionCreateSnapshot then
    match db.invoices.find?
        (fun i => i.id == invoice_id && i.company_id == ctx.company_id) with
    | none => .error .notFound
    | some inv =>
      if ctx.role = Role.sales then .error .forbidden
      else
        let existing := db.commissions.filter
          (fun c => c.invoice_id == invoice_id && c.company_id == ctx.company_id)
        if existing ≠ [] then .ok (existing, db)
        else
          let percent :=
            match inv.sold_by_user_id with
            | none => 2000
            | some seller =>
              match db.memberships.find?
                  (fun m => m.company_id == inv.company_id && m.user_id == seller) with
              | none => 2000
              | some m => m.commission_percent
          let base_amount := inv.total_amount
          let commission_amount :=
            roundHalfEvenScaled (base_amount * percent) 10000
          let snapshot : CommissionRow :=
            { id := db.next_id, company_id := inv.company_id,
              invoice_id := inv.id, user_id := inv.sold_by_user_id,
              base_amount := base_amount, percent := percent,
              commission_amount := commission_amount,
              status := CommissionStatus.pending }
          let db2 : Db :=
            { db with commissions := db.commissions ++ [snapshot],
                      next_id := db.next_id + 1 }
          .ok (db2.commissions.filter
                (fun c => c.invoice_id == invoice_id && c.company_id == ctx.company_id),
               db2)
  else .error .forbidden

/-- The commissions recorded for a given invoice. -/
def commissionsFor (db : Db) (invoice_id : Nat) : List CommissionRow :=
  db.commissions.filter (fun c => c.invoice_id == invoice_id)

/-- Applies `update_invoice` and keeps the updated store, or the original
store when the request fails. -/
def applyUpdate (ctx : AccessContext) (invoice_id : Nat)
    (upd : InvoiceUpdate) (db : Db) : Db :=
  match update_invoice ctx invoice_id upd db with
  | .ok r => r.2
  | .error _ => db

/-- The one draft invoice of the concrete store: company 1, sold by user
20, total 1000.00, unlocked. -/
def invoiceBaseRow : InvoiceRow :=
  { id := 100, company_id := 1, customer_id := 77, invoice_number := "INV-1",
    status := InvoiceStatus.draft, sold_by_user_id := some 20,
    total_amount := 100000, is_locked := false }

/-- The customer of company 1 in the concrete store. -/
def customerBigClient : CustomerRow :=
  { id := 77, company_id := 1, name := "Big Client" }

/-- A small concrete store: company 1 with an owner (user 10) and a
salesperson (user 20, rate 15.00%), company 2 with its own owner (user 2),
one draft invoice of company 1 sold by user 20 for 1000.00, and a customer
in each company. -/
def dbBase : Db :=
  { companies := [{ id := 1, name := "Acme" }],
    users :=
      [{ id := 10, email := "owner@a", full_name := "Owner A", is_active := true },
       { id := 20, email := "sales@a", full_name := "Sales A", is_active := true },
       { id := 2, email := "owner@b", full_name := "Owner B", is_active := true }],
    memberships :=
      [{ company_id := 1, user_id := 10, role := Role.owner, commission_percent := 0 },
       { company_id := 1, user_id := 20, role := Role.sales, commission_percent := 1500 },
       { company_id := 2, user_id := 2, role := Role.owner, commission_percent := 0 }],
    customers :=
      [customerBigClient,
       { id := 88, company_id := 2, name := "Rival Client" }],
    invoices := [invoiceBaseRow],
    invoice_items := [],
    commissions := [],
    next_id := 500 }

/-- The access context of company 1's owner, user 10. -/
def ctxOwnerA : AccessContext :=
  { user_id := 10, company_id := 1, role := Role.owner }

/-- A commission row for invoice 100 already in PAID status. -/
def commPaidRow : CommissionRow :=
  { id := 900, company_id := 1, invoice_id := 100, user_id := some 20,
    base_amount := 100000, percent := 1500, commission_amount := 15000,
    status := CommissionStatus.paid }

/-- `dbBase` with a commission for invoice 100 already in PAID status. -/
def dbCommPaid : Db :=
  { dbBase with commissions := [commPaidRow] }

/-- The store produced by approving commission 900 in `dbCommPaid`. -/
def dbCommApproved : Db :=
  { dbBase with commissions :=
      [{ commPaidRow with status := CommissionStatus.approved }] }

/-- The store produced by `create_company ctxOwnerA "NewCo" dbBase`. -/
def dbNewCo : Db :=
  { dbBase with
    companies := dbBase.companies ++ [{ id := 500, name := "NewCo" }],
    memberships := dbBase.memberships ++
      [{ company_id := 500, user_id := 10, role := Role.owner,
         commission_percent := 0 }],
    next_id := 501 }

/-- `dbBase` with the invoice total at 0.25 and the seller's rate at
10.00%, exercising the tie at the third decimal of `0.25 * 10%`. -/
def dbTiny : Db :=
  { dbBase with
    memberships :=
      [{ company_id := 1, user_id := 10, role := Role.owner, commission_percent := 0 },
       { company_id := 1, user_id := 20, role := Role.sales, commission_percent := 1000 },
       { company_id := 2, user_id := 2, role := Role.owner, commission_percent := 0 }],
    invoices :=
      [{ id := 100, company_id := 1, customer_id := 77, invoice_number := "INV-1",
         status := InvoiceStatus.draft, sold_by_user_id := some 20,
         total_amount := 25, is_locked := false }] }

/-- `invoiceBaseRow` after a total-only update to 1.11. -/
def invTotalUpdated : InvoiceRow :=
  { invoiceBaseRow with total_amount := 111 }

/-- The store produced by the owner's total-only update of invoice 100. -/
def dbTotalUpdated : Db :=
  { dbBase with invoices := [invTotalUpdated] }

/-!
## Helper lemmas

General facts about the embedded operations, shared by the claim
theorems below.
-/

/-- The commission-snapshot listener is a no-op unless the assigned value
is the PAID member and the prior status is not PAID. -/
lemma snapshot_on_paid_skip (inv : InvoiceRow) (v : StatusValue)
    (old : InvoiceStatus) (db : Db)
    (h : v ≠ StatusValue.ofEnum InvoiceStatus.paid ∨ old = InvoiceStatus.paid) :
    create_commission_snapshot_on_paid inv v old db = db := by
  unfold create_commission_snapshot_on_paid
  exact if_pos h

/-- An assigned *string* — as on the REST update path — never fires the
snapshot listener: a string is not the PAID enum member. -/
lemma snapshot_on_paid_string (inv : InvoiceRow) (s : String)
    (old : InvoiceStatus) (db : Db) :
    create_commission_snapshot_on_paid inv (StatusValue.ofString s) old db = db := by
  refine snapshot_on_paid_skip inv _ old db (Or.inl ?_)
  intro hc
  exact StatusValue.noConfusion hc

/-- Re-assigning the current typed status never fires the snapshot
listener. -/
lemma snapshot_on_paid_same (inv : InvoiceRow) (v : InvoiceStatus) (db : Db) :
    create_commission_snapshot_on_paid inv (StatusValue.ofEnum v) v db = db := by
  by_cases h : v = InvoiceStatus.paid
  · exact snapshot_on_paid_skip inv _ v db (Or.inr h)
  · refine snapshot_on_paid_skip inv _ v db (Or.inl ?_)
    intro hc
    injection hc with h2
    exact h h2

/-- `calculate_commission_amount` on in-range inputs reduces to the
half-up rounding of `base * percent / 100`. -/
lemma calculate_commission_amount_in_range (base p : Int) (hb : 0 ≤ base)
    (h0 : 0 ≤ p) (h1 : p ≤ 10000) :
    calculate_commission_amount base p =
      .ok (roundHalfUpScaled (base * p) 10000) := by
  unfold calculate_commission_amount
  rw [if_neg (not_lt.mpr hb),
    if_neg (not_or.mpr ⟨not_lt.mpr h0, not_lt.mpr h1⟩)]

/-- A *typed* PAID assignment (as in the `models.py` demo, where
`invoice.status = InvoiceStatus.PAID`) from a non-PAID status on an
invoice with an attributed salesperson appends exactly one PENDING
commission for that invoice, provided the store satisfies the rate range
constraint and the invoice total is non-negative. -/
lemma snapshot_on_paid_adds (inv : InvoiceRow) (old : InvoiceStatus)
    (db : Db) (u : Nat)
    (hold : old ≠ InvoiceStatus.paid)
    (hsold : inv.sold_by_user_id = some u)
    (htot : 0 ≤ inv.total_amount)
    (hperc : ∀ m ∈ db.memberships,
      0 ≤ m.commission_percent ∧ m.commission_percent ≤ 10000) :
    ∃ snap : CommissionRow,
      create_commission_snapshot_on_paid inv
          (StatusValue.ofEnum InvoiceStatus.paid) old db =
        { db with commissions := db.commissions ++ [snap],
                  next_id := db.next_id + 1 } ∧
      snap.invoice_id = inv.id := by
  have hguard : ¬(StatusValue.ofEnum InvoiceStatus.paid ≠
      StatusValue.ofEnum InvoiceStatus.paid ∨
      old = InvoiceStatus.paid) := by simp [hold]
  cases hm : db.memberships.find?
      (fun m => m.company_id == inv.company_id && m.user_id == u) with
  | none =>
    refine ⟨{ id := db.next_id, company_id := inv.company_id,
              invoice_id := inv.id, user_id := some u,
              base_amount := inv.total_amount, percent := 2000,
              commission_amount := roundHalfUpScaled (inv.total_amount * 2000) 10000,
              status := CommissionStatus.pending }, ?_, rfl⟩
    simp only [create_commission_snapshot_on_paid, if_neg hguard, hsold, hm,
      calculate_commission_amount_in_range inv.total_amount 2000 htot
        (by norm_num) (by norm_num)]
  | some m =>
    have hmrange := hperc m (List.mem_of_find?_eq_some hm)
    refine ⟨{ id := db.next_id, company_id := inv.company_id,
              invoice_id := inv.id, user_id := some u,
              base_amount := inv.total_amount, percent := m.commission_percent,
              commission_amount :=
                roundHalfUpScaled (inv.total_amount * m.commission_percent) 10000,
              status := CommissionStatus.pending }, ?_, rfl⟩
    simp only [create_commission_snapshot_on_paid, if_neg hguard, hsold, hm,
      calculate_commission_amount_in_range inv.total_amount m.commission_percent
        htot hmrange.1 hmrange.2]

/-- Replacing, in a list of invoices, every row keyed by `iid` with `inv2`
makes `inv2` the first row found by the id-and-company query, provided a
row with id `iid` is present at all. -/
lemma find?_map_replace (l : List InvoiceRow) (iid cid : Nat)
    (inv2 : InvoiceRow)
    (hex : ∃ x ∈ l, x.id = iid)
    (hid : inv2.id = iid) (hcid : inv2.company_id = cid) :
    (l.map (fun i => if i.id == iid then inv2 else i)).find?
        (fun i => i.id == iid && i.company_id == cid) = some inv2 := by
  induction l with
  | nil =>
    obtain ⟨x, hx, _⟩ := hex
    cases hx
  | cons a t ih =>
    cases hb : (a.id == iid) with
    | true =>
      have hstep : ((a :: t).map (fun i => if i.id == iid then inv2 else i))
          = inv2 :: t.map (fun i => if i.id == iid then inv2 else i) := by
        simp only [List.map_cons, hb]
        simp
      rw [hstep]
      apply List.find?_cons_of_pos
      simp [hid, hcid]
    | false =>
      have hstep : ((a :: t).map (fun i => if i.id == iid then inv2 else i))
          = a :: t.map (fun i => if i.id == iid then inv2 else i) := by
        simp only [List.map_cons, hb]
        simp
      rw [hstep]
      rw [List.find?_cons_of_neg]
      · apply ih
        obtain ⟨x, hx, hxid⟩ := hex
        rcases List.mem_cons.mp hx with hxa | hxt
        · exact absurd (hxa ▸ hxid) (beq_eq_false_iff_ne.mp hb)
        · exact ⟨x, hxt, hxid⟩
      · simp [hb]

/-- A granted access context carries the caller's id, and attests a
membership of the caller in the resolved company. -/
lemma access_context_membership (param : CompanyParam) (uid : Nat) (db : Db)
    (ctx : AccessContext)
    (h : get_access_context param uid db = .ok ctx) :
    ctx.user_id = uid ∧
    ∃ m ∈ db.memberships, m.user_id = uid ∧ m.company_id = ctx.company_id := by
  unfold get_access_context at h
  cases hres : resolve_company_id_for_request param uid db with
  | error e =>
    rw [hres] at h
    exact absurd h (by simp)
  | ok cid =>
    rw [hres] at h
    simp only [] at h
    cases hm : db.memberships.find?
        (fun m => m.company_id == cid && m.user_id == uid) with
    | none =>
      rw [hm] at h
      exact absurd h (by simp)
    | some m =>
      rw [hm] at h
      injection h with h2
      have hp := List.find?_some hm
      simp only [Bool.and_eq_true, beq_iff_eq] at hp
      rw [← h2]
      exact ⟨rfl, m, List.mem_of_find?_eq_some hm, hp.2, hp.1⟩

/-- Every invoice produced by the `list_invoices` query belongs to the
resolved company. -/
lemma list_invoices_query_company (ctx : AccessContext) (sp : Option Nat)
    (db : Db) :
    ∀ i ∈ list_invoices_query ctx sp db, i.company_id = ctx.company_id := by
  intro i hi
  have hsub : i ∈ db.invoices.filter (fun x => x.company_id == ctx.company_id) := by
    unfold list_invoices_query at hi
    split at hi
    · exact List.mem_of_mem_filter hi
    · cases sp with
      | none => exact hi
      | some u => exact List.mem_of_mem_filter hi
  exact beq_iff_eq.mp (List.mem_filter.mp hsub).2

/-!
## Claim theorems
-/

/-- C1 (code bug).  The claim — and the endpoint's own docstring,
"triggers commission snapshot if status → PAID" — says the first PAID
transition of an invoice creates exactly one Commission snapshot.  But
`update_invoice` assigns `status_map`'s lowercase *string* "paid" to the
`Enum(InvoiceStatus)` attribute: the listener receives that raw string,
its guard `value != InvoiceStatus.PAID` holds for every string, so no
snapshot is ever created through this endpoint; the string then fails the
enum bind at commit and the request errors with zero commissions
persisted.  The listener itself is correct: fired with the typed member
`InvoiceStatus.PAID` — as in the `models.py` demo, which assigns
`invoice.status = InvoiceStatus.PAID` — it creates exactly one PENDING
commission for the invoice. -/
theorem commission_snapshot_lost_on_update :
    update_invoice ctxOwnerA 100 ⟨some "paid", none⟩ dbBase =
      .error .internalError ∧
    (commissionsFor (applyUpdate ctxOwnerA 100 ⟨some "paid", none⟩ dbBase)
      100).length = 0 ∧
    (∀ (inv : InvoiceRow) (s : String) (old : InvoiceStatus) (db : Db),
      create_commission_snapshot_on_paid inv (StatusValue.ofString s) old db
        = db) ∧
    (commissionsFor (create_commission_snapshot_on_paid invoiceBaseRow
        (StatusValue.ofEnum InvoiceStatus.paid) InvoiceStatus.draft dbBase)
      100).length = 1 := by
  refine ⟨by decide, by decide, ?_, by decide⟩
  intro inv s old db
  exact snapshot_on_paid_string inv s old db

/-- C2 (counterexample).  The claim quantifies over every operation; the
`/api/auth/me` operation refutes it: `dbBase` records that user 10's only
membership is in company 1, yet a call made with such a caller's
credential (the token is never even inspected) and `user_id = 2` returns
user 2's actual profile and membership data of company 2 — role and
company id included — instead of Forbidden, NotFound or an empty
result. -/
theorem auth_me_leaks_foreign_tenant :
    dbBase.memberships.filter (fun m => m.user_id == 10) =
      [{ company_id := 1, user_id := 10, role := Role.owner,
         commission_percent := 0 }] ∧
    get_current_user 2 "token_10" dbBase =
      .ok { id := 2, email := "owner@b", full_name := "Owner B",
            is_active := true, role := some Role.owner,
            company_id := some 2 } := by decide

/-- C3 (code bug).  The endpoint `create_invoice_item` recomputes the
expected total with `Decimal.quantize(Decimal('0.01'))` and no rounding
argument — banker's rounding — while the claim (and the repository's own
`InvoiceItem.calculate_total_amount`, which the endpoint does not call)
requires round-half-up.  At quantity 0.50, unit price 0.05, discount 0:
the half-up total 0.03 is rejected with a validation failure while 0.02
is accepted.  The spec's own example (7 × 49.99 − 17.43 = 332.50, which
needs no rounding) behaves as claimed. -/
theorem invoice_item_total_rounding_divergence :
    calculate_total_amount 50 5 0 = .ok 3 ∧
    create_invoice_item ctxOwnerA ⟨100, "tie item", 50, 5, 0, 3⟩ dbBase =
      .error .validationFailure ∧
    (create_invoice_item ctxOwnerA ⟨100, "tie item", 50, 5, 0, 2⟩ dbBase).toOption.map
        (fun r => r.1.total_amount) = some 2 ∧
    (create_invoice_item ctxOwnerA
        ⟨100, "spec item", 700, 4999, 1743, 33250⟩ dbBase).toOption.map
        (fun r => r.1.total_amount) = some 33250 ∧
    create_invoice_item ctxOwnerA ⟨100, "spec item", 700, 4999, 1743, 33249⟩ dbBase =
      .error .validationFailure ∧
    create_invoice_item ctxOwnerA ⟨100, "spec item", 700, 4999, 1743, 33251⟩ dbBase =
      .error .validationFailure := by decide

/-- C4 (confirmed).  No accepted invoice update ever moves the status —
forward or backward: a recognized status input assigns a raw lowercase
string that cannot round-trip the `Enum(InvoiceStatus)` column, so the
request errors with nothing persisted, and an unrecognized input falls
back to the current status (a no-op assignment).  Hence every accepted
update returns the invoice with its prior status, and the stored row
keeps that status too: the status never regresses — monotonicity holds
degenerately, because the endpoint cannot perform any status transition
at all. -/
theorem invoice_status_never_regresses (ctx : AccessContext) (iid : Nat)
    (upd : InvoiceUpdate) (db : Db) (inv inv2 : InvoiceRow) (db2 : Db)
    (hfind : db.invoices.find?
      (fun i => i.id == iid && i.company_id == ctx.company_id) = some inv)
    (hok : update_invoice ctx iid upd db = .ok (inv2, db2)) :
    inv2.status = inv.status ∧
    db2.invoices.find?
      (fun i => i.id == iid && i.company_id == ctx.company_id) = some inv2 := by
  have hp := List.find?_some hfind
  simp only [Bool.and_eq_true, beq_iff_eq] at hp
  obtain ⟨hid, hcid⟩ := hp
  have hmem := List.mem_of_find?_eq_some hfind
  unfold update_invoice at hok
  split at hok
  · rw [hfind] at hok
    simp only [] at hok
    split at hok
    · exact absurd hok (by simp)
    · cases hs : upd.status with
      | some s =>
        rw [hs] at hok
        simp only [] at hok
        cases hm : status_map s with
        | some mapped =>
          rw [hm] at hok
          simp only [] at hok
          exact absurd hok (by simp)
        | none =>
          rw [hm] at hok
          simp only [snapshot_on_paid_same] at hok
          cases ht : upd.total_amount with
          | none =>
            rw [ht] at hok
            simp only [] at hok
            injection hok with h2
            injection h2 with h3 h4
            rw [← h3, ← h4]
            exact ⟨rfl, find?_map_replace db.invoices iid ctx.company_id inv
              ⟨inv, hmem, hid⟩ hid hcid⟩
          | some ta =>
            rw [ht] at hok
            simp only [] at hok
            injection hok with h2
            injection h2 with h3 h4
            rw [← h3, ← h4]
            exact ⟨rfl, find?_map_replace db.invoices iid ctx.company_id
              { inv with total_amount := ta } ⟨inv, hmem, hid⟩ hid hcid⟩
      | none =>
        rw [hs] at hok
        simp only [] at hok
        cases ht : upd.total_amount with
        | none =>
          rw [ht] at hok
          simp only [] at hok
          injection hok with h2
          injection h2 with h3 h4
          rw [← h3, ← h4]
          exact ⟨rfl, find?_map_replace db.invoices iid ctx.company_id inv
            ⟨inv, hmem, hid⟩ hid hcid⟩
        | some ta =>
          rw [ht] at hok
          simp only [] at hok
          injection hok with h2
          injection h2 with h3 h4
          rw [← h3, ← h4]
          exact ⟨rfl, find?_map_replace db.invoices iid ctx.company_id
            { inv with total_amount := ta } ⟨inv, hmem, hid⟩ hid hcid⟩
  · exact absurd hok (by simp)

/-- C4 (witness).  The theorem instantiated on the concrete store: the
owner's total-only update of invoice 100 (the only kind of update the
repository's own smoke test performs) succeeds and leaves the status at
DRAFT, both in the response and in the stored row. -/
theorem invoice_status_never_regresses_witness :
    invTotalUpdated.status = invoiceBaseRow.status ∧
    dbTotalUpdated.invoices.find?
      (fun i => i.id == 100 && i.company_id == ctxOwnerA.company_id)
      = some invTotalUpdated :=
  invoice_status_never_regresses ctxOwnerA 100 ⟨none, some 111⟩ dbBase
    invoiceBaseRow invTotalUpdated dbTotalUpdated (by decide) (by decide)

/-- C5 (counterexample).  On `dbCommPaid`, commission 900 is already in
PAID status, yet the owner's approve operation succeeds and leaves it in
APPROVED status — a backward transition the claim rules out. -/
theorem approve_on_paid_commission_regresses :
    dbCommPaid.commissions.map (fun c => c.status) = [CommissionStatus.paid] ∧
    (approve_commission ctxOwnerA 900 dbCommPaid).toOption.map
        (fun r => r.1.status) = some CommissionStatus.approved := by decide

/-- C6 (counterexample).  The claim puts ACCOUNTANT in the allowed role
sets of `product:create`, `product:update` and `invoice:update`; in
`PERMISSION_MATRIX` all three are OWNER-only. -/
theorem accountant_lacks_claimed_permissions :
    has_permission Role.accountant PermissionKey.productCreate = false ∧
    has_permission Role.accountant PermissionKey.productUpdate = false ∧
    has_permission Role.accountant PermissionKey.invoiceUpdate = false := by decide

/-- C6 (amended).  ACCOUNTANT's actual authority in the permission matrix
and the invoice-item endpoint's role list: create/read/update customers,
create and read invoices, read products, and create invoice items — but
product create/update and invoice update are OWNER-only. -/
theorem accountant_permission_profile :
    has_permission Role.accountant PermissionKey.customerCreate = true ∧
    has_permission Role.accountant PermissionKey.customerRead = true ∧
    has_permission Role.accountant PermissionKey.customerUpdate = true ∧
    has_permission Role.accountant PermissionKey.productRead = true ∧
    has_permission Role.accountant PermissionKey.invoiceCreate = true ∧
    has_permission Role.accountant PermissionKey.invoiceRead = true ∧
    Role.accountant ∈ create_invoice_item_roles ∧
    has_permission Role.accountant PermissionKey.productCreate = false ∧
    has_permission Role.accountant PermissionKey.productUpdate = false ∧
    has_permission Role.accountant PermissionKey.invoiceUpdate = false := by decide

/-- C7 (code bug).  The PAID-transition trigger computes the commission
through `Commission.calculate_commission_amount`, which rounds half-up
and satisfies both of the claim's examples (1000.00 at 15.00% ⇒ 150.00;
333.33 at 20.00% ⇒ 66.67).  The explicit create-snapshot endpoint,
however, quantizes with the default banker's rounding: on `dbTiny`
(invoice total 0.25, rate 10.00%) it records 0.02 where half-up — as the
claim requires — yields 0.03. -/
theorem commission_snapshot_rounding_divergence :
    calculate_commission_amount 100000 1500 = .ok 15000 ∧
    calculate_commission_amount 33333 2000 = .ok 6667 ∧
    (create_commission_snapshot ctxOwnerA 100 dbTiny).toOption.map
        (fun r => r.1.map (fun c => c.commission_amount)) = some [2] ∧
    roundHalfUpScaled (25 * 1000) 10000 = 3 := by decide

/-- C5 (amended).  The approve and mark-paid operations are OWNER-only
but unguarded with respect to the current status: whenever they succeed,
they set APPROVED (respectively PAID) unconditionally — including
backward moves from PAID to APPROVED — and a non-owner caller is always
rejected with Forbidden. -/
theorem commission_transitions_unconditional (ctx : AccessContext)
    (cid : Nat) (db : Db) :
    (∀ r db2, approve_commission ctx cid db = .ok (r, db2) →
      r.status = CommissionStatus.approved) ∧
    (∀ r db2, mark_commission_paid ctx cid db = .ok (r, db2) →
      r.status = CommissionStatus.paid) ∧
    (ctx.role ≠ Role.owner →
      approve_commission ctx cid db = .error .forbidden ∧
      mark_commission_paid ctx cid db = .error .forbidden) := by
  refine ⟨?_, ?_, ?_⟩
  · intro r db2 h
    unfold approve_commission at h
    split at h
    · cases hf : db.commissions.find?
          (fun c => c.id == cid && c.company_id == ctx.company_id) with
      | none =>
        rw [hf] at h
        exact absurd h (by simp)
      | some c =>
        rw [hf] at h
        injection h with h2
        injection h2 with h3 h4
        rw [← h3]
    · exact absurd h (by simp)
  · intro r db2 h
    unfold mark_commission_paid at h
    split at h
    · cases hf : db.commissions.find?
          (fun c => c.id == cid && c.company_id == ctx.company_id) with
      | none =>
        rw [hf] at h
        exact absurd h (by simp)
      | some c =>
        rw [hf] at h
        injection h with h2
        injection h2 with h3 h4
        rw [← h3]
    · exact absurd h (by simp)
  · intro hrole
    constructor
    · unfold approve_commission
      rw [if_neg hrole]
    · unfold mark_commission_paid
      rw [if_neg hrole]

/-- C5 (witness).  The amended theorem instantiated on `dbCommPaid`:
the owner's approve call on commission 900 succeeds, and the returned
row is in APPROVED status. -/
theorem commission_transitions_unconditional_witness :
    ({ commPaidRow with status := CommissionStatus.approved } : CommissionRow).status
      = CommissionStatus.approved :=
  (commission_transitions_unconditional ctxOwnerA 900 dbCommPaid).1
    { commPaidRow with status := CommissionStatus.approved } dbCommApproved
    (by decide)

/-- C2 (amended).  For the context-guarded, tenant-scoped operations
(`get_access_context` composed with the cited reads), isolation holds:
any granted context lies in a company where the caller holds a
membership, so when every membership of the caller avoids tenant `t2`,
a customer read never returns a `t2` row and an invoice list never
contains a `t2` row.  (The unauthenticated `/api/auth/me` endpoint is
excluded — see the counterexample.) -/
theorem tenant_isolation_scoped_ops (param : CompanyParam) (uid : Nat)
    (db : Db) (ctx : AccessContext) (t2 : Nat)
    (hctx : get_access_context param uid db = .ok ctx)
    (hmem : ∀ m ∈ db.memberships, m.user_id = uid → m.company_id ≠ t2) :
    ctx.company_id ≠ t2 ∧
    (∀ (cid : Nat) (c : CustomerRow),
      get_customer ctx cid db = .ok c → c.company_id ≠ t2) ∧
    (∀ (cp sp : Option Nat) (l : List InvoiceRow),
      list_invoices ctx cp sp db = .ok l → ∀ i ∈ l, i.company_id ≠ t2) := by
  obtain ⟨-, m, hm, hmu, hmc⟩ :=
    access_context_membership param uid db ctx hctx
  have hne : ctx.company_id ≠ t2 := hmc ▸ hmem m hm hmu
  refine ⟨hne, ?_, ?_⟩
  · intro cid c hc
    unfold get_customer at hc
    split at hc
    · cases hf : db.customers.find?
          (fun x => x.id == cid && x.company_id == ctx.company_id) with
      | none =>
        rw [hf] at hc
        exact absurd hc (by simp)
      | some c0 =>
        rw [hf] at hc
        injection hc with h2
        have hp := List.find?_some hf
        simp only [Bool.and_eq_true, beq_iff_eq] at hp
        rw [← h2, hp.2]
        exact hne
    · exact absurd hc (by simp)
  · intro cp sp l hl i hi
    unfold list_invoices at hl
    split at hl
    · cases cp with
      | some c =>
        simp only [] at hl
        split at hl
        · injection hl with h2
          rw [← h2] at hi
          rw [list_invoices_query_company ctx sp db i hi]
          exact hne
        · exact absurd hl (by simp)
      | none =>
        simp only [] at hl
        injection hl with h2
        rw [← h2] at hi
        rw [list_invoices_query_company ctx sp db i hi]
        exact hne
    · exact absurd hl (by simp)

/-- C2 (witness).  The amended theorem instantiated on the concrete
store: owner 10 of company 1 obtains a context for company 1 and reads
customer 77, which does not belong to company 2. -/
theorem tenant_isolation_scoped_ops_witness : customerBigClient.company_id ≠ 2 :=
  (tenant_isolation_scoped_ops (CompanyParam.given 1) 10 dbBase ctxOwnerA 2
    (by decide) (by decide)).2.1 77 customerBigClient (by decide)

/-- C8 (confirmed).  Tenant resolution follows the claimed precedence:
(1) an explicit company id is honored and the request granted exactly
when the caller holds a membership in that company, rejected otherwise;
(2) with no explicit id and exactly one membership, that membership's
company is inferred; (3) with no explicit id and zero or several
memberships, the request is rejected. -/
theorem tenant_resolution_precedence (uid : Nat) (db : Db) :
    (∀ c : Nat,
      (∃ m ∈ db.memberships, m.user_id = uid ∧ m.company_id = c) →
      ∃ ctx, get_access_context (.given c) uid db = .ok ctx ∧
        ctx.company_id = c ∧ ctx.user_id = uid) ∧
    (∀ c : Nat,
      (∀ m ∈ db.memberships, ¬(m.user_id = uid ∧ m.company_id = c)) →
      get_access_context (.given c) uid db = .error .forbidden) ∧
    (∀ m : MembershipRow,
      db.memberships.filter (fun x => x.user_id == uid) = [m] →
      ∃ ctx, get_access_context .absent uid db = .ok ctx ∧
        ctx.company_id = m.company_id) ∧
    ((db.memberships.filter (fun x => x.user_id == uid)).length ≠ 1 →
      get_access_context .absent uid db = .error .forbidden) := by
  refine ⟨?_, ?_, ?_, ?_⟩
  · intro c hex
    obtain ⟨m, hm, hmu, hmc⟩ := hex
    have hsome : (db.memberships.find?
        (fun x => x.company_id == c && x.user_id == uid)).isSome := by
      rw [List.find?_isSome]
      exact ⟨m, hm, by simp [hmu, hmc]⟩
    obtain ⟨m2, hm2⟩ := Option.isSome_iff_exists.mp hsome
    refine ⟨{ user_id := uid, company_id := c, role := m2.role }, ?_, rfl, rfl⟩
    simp only [get_access_context, resolve_company_id_for_request, hm2]
  · intro c hall
    have hnone : db.memberships.find?
        (fun x => x.company_id == c && x.user_id == uid) = none := by
      rw [List.find?_eq_none]
      intro x hx hp
      simp only [Bool.and_eq_true, beq_iff_eq] at hp
      exact hall x hx ⟨hp.2, hp.1⟩
    simp only [get_access_context, resolve_company_id_for_request, hnone]
  · intro m hfil
    have hmem : m ∈ db.memberships.filter (fun x => x.user_id == uid) := by
      rw [hfil]
      exact List.mem_singleton.mpr rfl
    have hmem2 := List.mem_filter.mp hmem
    have hsome : (db.memberships.find?
        (fun x => x.company_id == m.company_id && x.user_id == uid)).isSome := by
      rw [List.find?_isSome]
      exact ⟨m, hmem2.1, by simp [hmem2.2]⟩
    obtain ⟨m2, hm2⟩ := Option.isSome_iff_exists.mp hsome
    refine ⟨{ user_id := uid, company_id := m.company_id, role := m2.role },
      ?_, rfl⟩
    simp only [get_access_context, resolve_company_id_for_request, hfil, hm2]
  · intro hlen
    cases hfil : db.memberships.filter (fun x => x.user_id == uid) with
    | nil =>
      simp only [get_access_context, resolve_company_id_for_request, hfil]
    | cons a t =>
      cases t with
      | nil =>
        exact absurd (by rw [hfil]; simp) hlen
      | cons b t2 =>
        simp only [get_access_context, resolve_company_id_for_request, hfil]

/-- C8 (witness).  The precedence theorem instantiated on the concrete
store: user 2 holds exactly one membership (company 2), so a request
without an explicit company id resolves to company 2. -/
theorem tenant_resolution_precedence_witness :
    ∃ ctx, get_access_context CompanyParam.absent 2 dbBase = .ok ctx ∧
      ctx.company_id = 2 :=
  (tenant_resolution_precedence 2 dbBase).2.2.1
    { company_id := 2, user_id := 2, role := Role.owner,
      commission_percent := 0 } (by decide)

/-- C9 (confirmed).  The `/api/auth/me` operation's result is independent
of its `token` parameter — the parameter is accepted and never inspected
— and for any existing active user it returns that user's profile
(email, name, role, company of the first membership found) with no
authentication check. -/
theorem auth_me_token_ignored :
    (∀ (uid : Nat) (t1 t2 : String) (db : Db),
      get_current_user uid t1 db = get_current_user uid t2 db) ∧
    (∀ (uid : Nat) (t : String) (db : Db) (u : UserRow),
      db.users.find? (fun x => x.id == uid) = some u →
      u.is_active = true →
      get_current_user uid t db =
        .ok { id := u.id, email := u.email, full_name := u.full_name,
              is_active := u.is_active,
              role := (db.memberships.find?
                (fun m => m.user_id == u.id)).map (fun m => m.role),
              company_id := (db.memberships.find?
                (fun m => m.user_id == u.id)).map (fun m => m.company_id) }) := by
  constructor
  · intro uid t1 t2 db
    rfl
  · intro uid t db u hf ha
    simp [get_current_user, hf, ha]

/-- C9 (witness).  The theorem instantiated on the concrete store: a call
for user 10 with an arbitrary token string returns user 10's profile. -/
theorem auth_me_token_ignored_witness :
    get_current_user 10 "arbitrary" dbBase =
      .ok { id := 10, email := "owner@a", full_name := "Owner A",
            is_active := true, role := some Role.owner,
            company_id := some 1 } := by
  have h := auth_me_token_ignored.2 10 "arbitrary" dbBase
    { id := 10, email := "owner@a", full_name := "Owner A", is_active := true }
    (by decide) (by decide)
  rw [h]
  decide

/-- C10 (confirmed).  Every successful create-company call also records a
membership binding the calling principal to the new company with role
OWNER and `commission_percent` 0.00. -/
theorem create_company_adds_owner_membership (ctx : AccessContext)
    (name : String) (db : Db) (c : CompanyRow) (db2 : Db)
    (h : create_company ctx name db = .ok (c, db2)) :
    ∃ m ∈ db2.memberships,
      m.company_id = c.id ∧ m.user_id = ctx.user_id ∧
      m.role = Role.owner ∧ m.commission_percent = 0 := by
  unfold create_company at h
  split at h
  · injection h with h2
    injection h2 with h3 h4
    rw [← h3, ← h4]
    refine ⟨{ company_id := db.next_id, user_id := ctx.user_id,
              role := Role.owner, commission_percent := 0 }, ?_, rfl, rfl, rfl, rfl⟩
    simp
  · exact absurd h (by simp)

/-- C10 (witness).  The theorem instantiated on the concrete store: after
owner 10 creates "NewCo" (id 500), `dbNewCo` holds an OWNER membership of
user 10 in company 500 with a zero commission rate. -/
theorem create_company_adds_owner_membership_witness :
    ∃ m ∈ dbNewCo.memberships,
      m.company_id = 500 ∧ m.user_id = 10 ∧
      m.role = Role.owner ∧ m.commission_percent = 0 :=
  create_company_adds_owner_membership ctxOwnerA "NewCo" dbBase
    { id := 500, name := "NewCo" } dbNewCo (by decide)

end Rayafin
